import Mathlib

/-!
Shallow embedding of `pkg/github/pullrequest_implementation.go` from
puerco/mattermod-refactor.

The Go code mixes pure decision logic (merge-mode classification, patch-tree
parent selection) with GitHub API calls. Each API call is modelled as an
explicit input describing the value that call would produce:
  * repository resolution      -> an `Option Repository` (nil on failure),
  * a single commit fetch      -> `Except String (Option Commit)`
    (`Except.error e` for a transport error, `Except.ok none` for a
    successful call whose payload is empty, `Except.ok (some c)` otherwise),
  * the paginated commit list  -> the platform's pages of commits.

A Go function returning `(value, err)` is embedded as `GoRet α`, carrying the
returned value together with the error slot (`none` = nil error); the extra
`GoRet.panicked` constructor records a Go runtime panic (e.g. a slice index
out of range), which a `(value, err)` pair cannot represent.
`errors.Wrapf(err, "ctx")` produces the message `"ctx: err"`, which is how
github.com/pkg/errors renders a wrapped error.
-/

set_option autoImplicit false

namespace Mattermod

/-- A repository, identified by owner and name. -/
structure Repository where
  owner : String
  name : String
deriving Repr, DecidableEq

/-- A parent reference inside a commit: reduces to a SHA. -/
structure Parent where
  SHA : String
deriving Repr, DecidableEq

/-- A commit as the Go wrapper exposes it: its SHA, the SHA of its file
tree, and its ordered parent list. -/
structure Commit where
  SHA : String
  TreeSHA : String
  Parents : List Parent
deriving Repr, DecidableEq

/-- A pull request: repository coordinates, PR number, the SHA the platform
records as the merge commit, and the lazily resolved repository. -/
structure PullRequest where
  RepoOwner : String
  RepoName : String
  Number : Nat
  MergeCommitSHA : String
  Repository : Option Repository
deriving Repr, DecidableEq

/-- Result of a Go function returning `(value, err)`: either a returned
pair (`err = none` means a nil error) or a runtime panic. -/
inductive GoRet (α : Type) where
  | ret : α → Option String → GoRet α
  | panicked : String → GoRet α
deriving Repr, DecidableEq

/-- Modelled from the spec: `MergeMode` is "an enumeration of three terminal
values {MERGE, SQUASH, REBASE}"; the string constants are declared outside
the embedded file. Only their distinctness matters here. -/
def MERGE : String := "merge"

/-- See `MERGE`. -/
def SQUASH : String := "squash"

/-- See `MERGE`. -/
def REBASE : String := "rebase"

/-- Embeds `loadRepository`: on a fetch error the Go code logs the error and
returns, leaving `pr.Repository` untouched; on success it stores the fetched
repository on the pull request. -/
def loadRepository (fetchRepo : Except String Repository) (pr : PullRequest) :
    PullRequest :=
  match fetchRepo with
  | .error _ => pr
  | .ok repo => { pr with Repository := some repo }

/-- Embeds `getMergeMode`. `repo` is the value of `pr.GetRepository(ctx)`
after the resolution attempt; `fetchMergeCommit` is the outcome of
`GetCommit(ctx, pr.MergeCommitSHA)` on that repository; `commits` is the
pre-fetched PR commit list handed in by the caller. Note that the Go code
reads `commits[len(commits)-1]` without an emptiness guard, which panics
when `commits` is empty. -/
def getMergeMode (pr : PullRequest) (repo : Option Repository)
    (fetchMergeCommit : Except String (Option Commit))
    (commits : List Commit) : GoRet String :=
  match repo with
  | none => .ret "" (some ("unable to get merge mode, pull request has no repo"))
  | some _ =>
    match fetchMergeCommit with
    | .error e =>
        .ret "" (some ("querying GitHub for merge commit " ++ pr.MergeCommitSHA ++ ": " ++ e))
    | .ok none =>
        .ret "" (some ("commit returned empty when querying sha " ++ pr.MergeCommitSHA))
    | .ok (some mergeCommit) =>
      if mergeCommit.Parents.length > 1 then
        .ret MERGE none
      else if commits.length = 1 then
        .ret SQUASH none
      else
        match commits.getLast? with
        | none => .panicked ("runtime error: index out of range")
        | some lastCommit =>
          if mergeCommit.TreeSHA = lastCommit.TreeSHA then
            .ret REBASE none
          else
            .ret SQUASH none

/-- Embeds `getCommits`. The platform delivers the PR's commits in pages;
`listCommits` is the paged data the GitHub client would serve (or a
transport error). The Go code calls `ListCommits` exactly once with a
default-constructed `ListOptions` and discards the response object carrying
`NextPage`, so it receives the first page only. -/
def getCommits (pr : PullRequest)
    (listCommits : Except String (List (List Commit))) : GoRet (List Commit) :=
  match listCommits with
  | .error e =>
      .ret [] (some ("querying GitHub for commits in PR " ++ toString pr.Number ++ ": " ++ e))
  | .ok pages => .ret (pages.headD []) none

/-- Embeds the parent-scanning loop of `findPatchTree`: for each parent in
order, fetch its commit; abort with the wrapped error on a fetch failure or
an empty payload; return the running index `pn` on the first tree match.
`none` means the loop fell through without returning. -/
def scanParents (fetchParent : String → Except String (Option Commit))
    (prSHA : String) : List Parent → Nat → Option (GoRet Nat)
  | [], _ => none
  | parent :: rest, pn =>
    match fetchParent parent.SHA with
    | .error e =>
        some (.ret 0 (some ("querying GitHub for parent commit " ++ parent.SHA ++ ": " ++ e)))
    | .ok none =>
        some (.ret 0 (some ("commit returned empty when querying sha " ++ parent.SHA)))
    | .ok (some parentCommit) =>
      if parentCommit.TreeSHA = prSHA then some (.ret pn none)
      else scanParents fetchParent prSHA rest (pn + 1)

/-- Embeds `findPatchTree`. `fetchCommits` is the outcome of
`pr.GetCommits(ctx)`, `fetchMergeCommit` the outcome of fetching
`pr.MergeCommitSHA`, and `fetchParent` maps a parent SHA to the outcome of
fetching that parent's commit. -/
def findPatchTree (pr : PullRequest)
    (fetchCommits : Except String (List Commit))
    (fetchMergeCommit : Except String (Option Commit))
    (fetchParent : String → Except String (Option Commit)) : GoRet Nat :=
  match fetchCommits with
  | .error e => .ret 0 (some ("getting pr commits: " ++ e))
  | .ok commits =>
    if commits.length = 0 then
      .ret 0 (some ("unable to find patch tree, commit list is empty"))
    else
      match fetchMergeCommit with
      | .error e =>
          .ret 0 (some ("querying GitHub for merge commit " ++ pr.MergeCommitSHA ++ ": " ++ e))
      | .ok none =>
          .ret 0 (some ("commit returned empty when querying sha " ++ pr.MergeCommitSHA))
      | .ok (some mergeCommit) =>
        match commits.getLast? with
        | none => .panicked ("runtime error: index out of range")
        | some lastCommit =>
          match scanParents fetchParent lastCommit.TreeSHA mergeCommit.Parents 0 with
          | some r => r
          | none =>
            .ret 0 (some ("unable to find patch tree of merge commit among " ++
              toString mergeCommit.Parents.length ++ " parents"))

/-! ### Concrete fixtures used by witness theorems -/

/-- A concrete pull request used by the witness theorems. -/
def prW : PullRequest :=
  { RepoOwner := "octo", RepoName := "repo", Number := 42,
    MergeCommitSHA := "msha", Repository := none }

/-- A concrete repository used by the witness theorems. -/
def repoW : Repository := { owner := "octo", name := "repo" }

/-! ### C1 -/

/-- C1: with a repository resolved, a successfully fetched merge commit with
at most one parent, and at least two PR commits, `getMergeMode` returns
REBASE with a nil error when the merge commit's tree SHA equals the last PR
commit's tree SHA, and SQUASH with a nil error when the two differ. -/
theorem getMergeMode_multi_commit (pr : PullRequest) (repo : Repository)
    (mergeCommit : Commit) (commits : List Commit) (lastCommit : Commit)
    (hpar : mergeCommit.Parents.length ≤ 1)
    (hlen : 2 ≤ commits.length)
    (hlast : commits.getLast? = some lastCommit) :
    (mergeCommit.TreeSHA = lastCommit.TreeSHA →
      getMergeMode pr (some repo) (.ok (some mergeCommit)) commits =
        .ret REBASE none) ∧
    (mergeCommit.TreeSHA ≠ lastCommit.TreeSHA →
      getMergeMode pr (some repo) (.ok (some mergeCommit)) commits =
        .ret SQUASH none) := by
  have h1 : ¬ mergeCommit.Parents.length > 1 := by omega
  have h2 : ¬ commits.length = 1 := by omega
  constructor
  · intro htree
    simp [getMergeMode, h1, h2, hlast, htree]
  · intro htree
    simp [getMergeMode, h1, h2, hlast, htree]

/-- Witness for C1 at a concrete input: two-commit PR whose last commit's
tree matches the merge commit's tree is classified REBASE. -/
theorem getMergeMode_multi_commit_witness :
    getMergeMode prW (some repoW)
      (.ok (some { SHA := "msha", TreeSHA := "t1", Parents := [{ SHA := "p0" }] }))
      [{ SHA := "c1", TreeSHA := "t0", Parents := [] },
       { SHA := "c2", TreeSHA := "t1", Parents := [{ SHA := "c1" }] }] =
      .ret REBASE none :=
  (getMergeMode_multi_commit prW repoW _ _ _
    (by decide) (by decide) (by rfl)).1 (by rfl)

/-! ### C2 -/

/-- C2: whenever the fetched merge commit has two or more parents,
`getMergeMode` returns MERGE with a nil error, regardless of any tree SHA
and of how many commits the PR contains. -/
theorem getMergeMode_merge_commit (pr : PullRequest) (repo : Repository)
    (mergeCommit : Commit) (commits : List Commit)
    (hpar : 2 ≤ mergeCommit.Parents.length) :
    getMergeMode pr (some repo) (.ok (some mergeCommit)) commits =
      .ret MERGE none := by
  have h1 : mergeCommit.Parents.length > 1 := by omega
  simp [getMergeMode, h1]

/-- Witness for C2 at a concrete input: a two-parent merge commit over an
empty commit list, with differing trees, is classified MERGE. -/
theorem getMergeMode_merge_commit_witness :
    getMergeMode prW (some repoW)
      (.ok (some { SHA := "msha", TreeSHA := "tm",
                   Parents := [{ SHA := "p0" }, { SHA := "p1" }] })) [] =
      .ret MERGE none :=
  getMergeMode_merge_commit prW repoW _ [] (by decide)

/-! ### C3 -/

/-- C3 (code bug): with a resolved repository, a successfully fetched merge
commit with a single parent, and an empty `commits` list, `getMergeMode`
does not return an error: it evaluates `commits[len(commits)-1]` and panics
with an index-out-of-range runtime error. The claim (and the spec) say an
`InvalidInput` error is returned instead. -/
theorem getMergeMode_empty_commits_panics :
    getMergeMode prW (some repoW)
      (.ok (some { SHA := "msha", TreeSHA := "tm", Parents := [{ SHA := "p0" }] }))
      [] =
      .panicked ("runtime error: index out of range") := by
  rfl

/-! ### C4 -/

/-- C4: with a merge commit having at most one parent and exactly one PR
commit, `getMergeMode` returns SQUASH with a nil error; the tree SHAs of the
merge commit and of the single commit are universally quantified, so no tree
comparison influences the result. -/
theorem getMergeMode_single_commit (pr : PullRequest) (repo : Repository)
    (mergeCommit : Commit) (c : Commit)
    (hpar : mergeCommit.Parents.length ≤ 1) :
    getMergeMode pr (some repo) (.ok (some mergeCommit)) [c] =
      .ret SQUASH none := by
  have h1 : ¬ mergeCommit.Parents.length > 1 := by omega
  simp [getMergeMode, h1]

/-- Witness for C4 at a concrete input: a one-commit PR under a one-parent
merge commit is classified SQUASH even though the trees differ. -/
theorem getMergeMode_single_commit_witness :
    getMergeMode prW (some repoW)
      (.ok (some { SHA := "msha", TreeSHA := "tm", Parents := [{ SHA := "p0" }] }))
      [{ SHA := "c1", TreeSHA := "t1", Parents := [] }] =
      .ret SQUASH none :=
  getMergeMode_single_commit prW repoW _ _ (by decide)

/-! ### C8 -/

/-- C8: when the repository fetch fails and the pull request had no
repository resolved beforehand, `loadRepository` leaves the reference
absent and `getMergeMode` fails with the no-repo error; the merge-commit
fetch outcome and the commit list are universally quantified, so neither is
consulted. -/
theorem getMergeMode_missing_repo (pr : PullRequest) (e : String)
    (fetchMergeCommit : Except String (Option Commit)) (commits : List Commit)
    (hrepo : pr.Repository = none) :
    getMergeMode pr (loadRepository (.error e) pr).Repository
        fetchMergeCommit commits =
      .ret "" (some ("unable to get merge mode, pull request has no repo")) := by
  simp [loadRepository, getMergeMode, hrepo]

/-- Witness for C8 at a concrete input: a failed repository fetch on a PR
with no resolved repository makes `getMergeMode` fail with the no-repo
error. -/
theorem getMergeMode_missing_repo_witness :
    getMergeMode prW (loadRepository (.error "boom") prW).Repository
        (.ok none) [] =
      .ret "" (some ("unable to get merge mode, pull request has no repo")) :=
  getMergeMode_missing_repo prW "boom" (.ok none) [] (by rfl)

/-! ### Helper lemmas about the parent scan -/

/-- Scanning past a block of parents that all fetch successfully and whose
trees do not match only advances the running index. -/
theorem scanParents_append_skip
    (fetchParent : String → Except String (Option Commit)) (prSHA : String)
    (g : Parent → Commit) (pre rest : List Parent) (k : Nat)
    (h : ∀ p ∈ pre,
      fetchParent p.SHA = Except.ok (some (g p)) ∧ (g p).TreeSHA ≠ prSHA) :
    scanParents fetchParent prSHA (pre ++ rest) k =
      scanParents fetchParent prSHA rest (k + pre.length) := by
  induction pre generalizing k with
  | nil => simp
  | cons p pre ih =>
    obtain ⟨hf, hne⟩ := h p (by simp)
    have hrest : ∀ q ∈ pre,
        fetchParent q.SHA = Except.ok (some (g q)) ∧ (g q).TreeSHA ≠ prSHA :=
      fun q hq => h q (by simp [hq])
    simp only [List.cons_append, scanParents, hf, if_neg hne]
    rw [show pre.append rest = pre ++ rest from rfl, ih (k + 1) hrest]
    congr 1
    simp only [List.length_cons]
    omega

/-- A scan over parents that all fetch successfully and never match falls
through without returning. -/
theorem scanParents_no_match
    (fetchParent : String → Except String (Option Commit)) (prSHA : String)
    (g : Parent → Commit) (parents : List Parent) (k : Nat)
    (h : ∀ p ∈ parents,
      fetchParent p.SHA = Except.ok (some (g p)) ∧ (g p).TreeSHA ≠ prSHA) :
    scanParents fetchParent prSHA parents k = none := by
  have := scanParents_append_skip fetchParent prSHA g parents [] k h
  simpa [scanParents] using this

/-! ### C5 -/

/-- C5: with a non-empty PR commit list and every parent fetch succeeding
(`g` names the commit each parent SHA fetches to), `findPatchTree` returns,
with a nil error, the index of the first parent whose tree SHA equals the
last PR commit's tree SHA, and when no parent matches it fails with the
error naming the total number of parents of the merge commit. -/
theorem findPatchTree_parent_match (pr : PullRequest) (commits : List Commit)
    (lastCommit : Commit) (mergeCommit : Commit)
    (fetchParent : String → Except String (Option Commit)) (g : Parent → Commit)
    (hlast : commits.getLast? = some lastCommit)
    (hfetch : ∀ p ∈ mergeCommit.Parents,
      fetchParent p.SHA = Except.ok (some (g p))) :
    (∀ pre pm rest, mergeCommit.Parents = pre ++ pm :: rest →
      (∀ p ∈ pre, (g p).TreeSHA ≠ lastCommit.TreeSHA) →
      (g pm).TreeSHA = lastCommit.TreeSHA →
      findPatchTree pr (.ok commits) (.ok (some mergeCommit)) fetchParent =
        .ret pre.length none) ∧
    ((∀ p ∈ mergeCommit.Parents, (g p).TreeSHA ≠ lastCommit.TreeSHA) →
      findPatchTree pr (.ok commits) (.ok (some mergeCommit)) fetchParent =
        .ret 0 (some ("unable to find patch tree of merge commit among " ++
          toString mergeCommit.Parents.length ++ " parents"))) := by
  have hne : commits ≠ [] := by
    intro hc
    rw [hc] at hlast
    simp at hlast
  have hlen : ¬ commits.length = 0 := by
    simpa [List.length_eq_zero] using hne
  constructor
  · intro pre pm rest hsplit hpre hpm
    have hpre' : ∀ p ∈ pre,
        fetchParent p.SHA = Except.ok (some (g p)) ∧
          (g p).TreeSHA ≠ lastCommit.TreeSHA := by
      intro p hp
      exact ⟨hfetch p (by simp [hsplit, hp]), hpre p hp⟩
    have hpmfetch : fetchParent pm.SHA = Except.ok (some (g pm)) :=
      hfetch pm (by simp [hsplit])
    simp only [findPatchTree, if_neg hlen, hlast, hsplit]
    rw [scanParents_append_skip fetchParent lastCommit.TreeSHA g pre
      (pm :: rest) 0 hpre']
    simp [scanParents, hpmfetch, hpm]
  · intro hnomatch
    have hall : ∀ p ∈ mergeCommit.Parents,
        fetchParent p.SHA = Except.ok (some (g p)) ∧
          (g p).TreeSHA ≠ lastCommit.TreeSHA :=
      fun p hp => ⟨hfetch p hp, hnomatch p hp⟩
    simp only [findPatchTree, if_neg hlen, hlast]
    rw [scanParents_no_match fetchParent lastCommit.TreeSHA g
      mergeCommit.Parents 0 hall]

/-! ### C6 -/

/-- C6: when the fetched PR commit list is empty, `findPatchTree` fails with
the empty-commit-list error; the merge-commit fetch outcome and the parent
fetcher are universally quantified, so neither is consulted. -/
theorem findPatchTree_empty_commit_list (pr : PullRequest)
    (fetchMergeCommit : Except String (Option Commit))
    (fetchParent : String → Except String (Option Commit)) :
    findPatchTree pr (.ok []) fetchMergeCommit fetchParent =
      .ret 0 (some ("unable to find patch tree, commit list is empty")) := rfl

/-- Fixture: the merge commit's first parent, tree `tx`. -/
def parentCommitW0 : Commit := { SHA := "p0", TreeSHA := "tx", Parents := [] }

/-- Fixture: the merge commit's second parent, tree `ty`. -/
def parentCommitW1 : Commit := { SHA := "p1", TreeSHA := "ty", Parents := [] }

/-- Fixture: a two-parent merge commit. -/
def mergeCommitW : Commit :=
  { SHA := "msha", TreeSHA := "tm", Parents := [{ SHA := "p0" }, { SHA := "p1" }] }

/-- Fixture: a one-element PR commit list whose last tree is `ty`. -/
def commitsW : List Commit := [{ SHA := "c1", TreeSHA := "ty", Parents := [] }]

/-- Fixture: a parent fetcher that serves both parents successfully. -/
def fetchParentW : String → Except String (Option Commit) := fun sha =>
  if sha = "p0" then .ok (some parentCommitW0)
  else if sha = "p1" then .ok (some parentCommitW1)
  else .ok none

/-- Fixture: the commit each parent reference resolves to under
`fetchParentW`. -/
def gW : Parent → Commit := fun p =>
  if p.SHA = "p0" then parentCommitW0 else parentCommitW1

/-- Witness for C5 at a concrete input (spec Example 5): parents with trees
`tx` and `ty`, last PR commit tree `ty`, so parent index 1 is returned. -/
theorem findPatchTree_parent_match_witness :
    findPatchTree prW (.ok commitsW) (.ok (some mergeCommitW)) fetchParentW =
      .ret 1 none :=
  (findPatchTree_parent_match prW commitsW
      { SHA := "c1", TreeSHA := "ty", Parents := [] } mergeCommitW
      fetchParentW gW (by rfl)
      (by
        intro p hp
        simp only [mergeCommitW, List.mem_cons, List.not_mem_nil, or_false] at hp
        rcases hp with rfl | rfl <;> rfl)).1
    [{ SHA := "p0" }] { SHA := "p1" } [] (by rfl) (by decide) (by decide)

/-! ### C7 -/

/-- C7: with a non-empty commit list, parents `pre ++ bad :: post` where
every parent in `pre` fetches successfully without a tree match and the
fetch of `bad` fails or comes back empty: `findPatchTree` fails with the
error wrapping the underlying cause (fetch error) or naming the offending
SHA (empty payload), and the result is unchanged under any parent fetcher
agreeing on `pre` and `bad` — the parents in `post` are never consulted and
no index is reported as a match. -/
theorem findPatchTree_parent_fetch_aborts (pr : PullRequest)
    (commits : List Commit) (lastCommit : Commit) (mergeCommit : Commit)
    (pre : List Parent) (bad : Parent) (post : List Parent)
    (fetchParent : String → Except String (Option Commit)) (g : Parent → Commit)
    (hlast : commits.getLast? = some lastCommit)
    (hsplit : mergeCommit.Parents = pre ++ bad :: post)
    (hpre : ∀ p ∈ pre,
      fetchParent p.SHA = Except.ok (some (g p)) ∧
        (g p).TreeSHA ≠ lastCommit.TreeSHA)
    (hbad : (∃ e, fetchParent bad.SHA = Except.error e) ∨
      fetchParent bad.SHA = Except.ok none) :
    (∀ e, fetchParent bad.SHA = Except.error e →
      findPatchTree pr (.ok commits) (.ok (some mergeCommit)) fetchParent =
        .ret 0 (some ("querying GitHub for parent commit " ++ bad.SHA ++ ": " ++ e))) ∧
    (fetchParent bad.SHA = Except.ok none →
      findPatchTree pr (.ok commits) (.ok (some mergeCommit)) fetchParent =
        .ret 0 (some ("commit returned empty when querying sha " ++ bad.SHA))) ∧
    (∀ fp' : String → Except String (Option Commit),
      (∀ p ∈ pre, fp' p.SHA = fetchParent p.SHA) →
      fp' bad.SHA = fetchParent bad.SHA →
      findPatchTree pr (.ok commits) (.ok (some mergeCommit)) fp' =
        findPatchTree pr (.ok commits) (.ok (some mergeCommit)) fetchParent) := by
  have hne : commits ≠ [] := by
    intro hc
    rw [hc] at hlast
    simp at hlast
  have hlen : ¬ commits.length = 0 := by
    simpa [List.length_eq_zero] using hne
  have key : ∀ fp : String → Except String (Option Commit),
      (∀ p ∈ pre,
        fp p.SHA = Except.ok (some (g p)) ∧
          (g p).TreeSHA ≠ lastCommit.TreeSHA) →
      findPatchTree pr (.ok commits) (.ok (some mergeCommit)) fp =
        (match fp bad.SHA with
          | .error e =>
            .ret 0 (some ("querying GitHub for parent commit " ++ bad.SHA ++ ": " ++ e))
          | .ok none =>
            .ret 0 (some ("commit returned empty when querying sha " ++ bad.SHA))
          | .ok (some badCommit) =>
            match scanParents fp lastCommit.TreeSHA (bad :: post) pre.length with
            | some r => r
            | none =>
              .ret 0 (some ("unable to find patch tree of merge commit among " ++
                toString mergeCommit.Parents.length ++ " parents"))) := by
    intro fp hp
    simp only [findPatchTree, if_neg hlen, hlast, hsplit]
    rw [scanParents_append_skip fp lastCommit.TreeSHA g pre (bad :: post) 0 hp]
    simp only [Nat.zero_add]
    match hfb : fp bad.SHA with
    | .error e => simp [scanParents, hfb]
    | .ok none => simp [scanParents, hfb]
    | .ok (some badCommit) => rfl
  refine ⟨?_, ?_, ?_⟩
  · intro e hfb
    rw [key fetchParent hpre, hfb]
  · intro hfb
    rw [key fetchParent hpre, hfb]
  · intro fp' hagree hagreebad
    have hp' : ∀ p ∈ pre,
        fp' p.SHA = Except.ok (some (g p)) ∧
          (g p).TreeSHA ≠ lastCommit.TreeSHA := by
      intro p hp
      exact ⟨(hagree p hp).trans (hpre p hp).1, (hpre p hp).2⟩
    rw [key fetchParent hpre, key fp' hp', hagreebad]
    rcases hbad with ⟨e, hfb⟩ | hfb <;> rw [hfb]

/-- Fixture: a parent fetcher whose call for `p0` fails with a transport
error and which would serve any other SHA successfully. -/
def fetchParentBadW : String → Except String (Option Commit) := fun sha =>
  if sha = "p0" then .error "boom" else .ok (some parentCommitW1)

/-- Witness for C7 at a concrete input: the fetch of the first parent
errors, so `findPatchTree` fails with the wrapped error even though the
second parent would have matched. -/
theorem findPatchTree_parent_fetch_aborts_witness :
    findPatchTree prW (.ok commitsW) (.ok (some mergeCommitW)) fetchParentBadW =
      .ret 0 (some ("querying GitHub for parent commit " ++ "p0" ++ ": " ++ "boom")) :=
  (findPatchTree_parent_fetch_aborts prW commitsW
      { SHA := "c1", TreeSHA := "ty", Parents := [] } mergeCommitW
      [] { SHA := "p0" } [{ SHA := "p1" }] fetchParentBadW gW
      (by rfl) (by rfl) (by simp) (Or.inl ⟨"boom", rfl⟩)).1 "boom" rfl

/-! ### C9 -/

/-- Fixture: first commit of a two-page commit listing. -/
def c1W : Commit := { SHA := "c1", TreeSHA := "t1", Parents := [] }

/-- Fixture: second commit of a two-page commit listing, delivered on the
second page. -/
def c2W : Commit := { SHA := "c2", TreeSHA := "t2", Parents := [{ SHA := "c1" }] }

/-- C9 (code bug): when the platform delivers the PR's commits across two
pages, `getCommits` returns only the first page — `ListCommits` is called
once with default options and the response's `NextPage` is discarded — so
the returned list is not the concatenation of all pages and its last
element is not the PR's true last commit. -/
theorem getCommits_first_page_only :
    getCommits prW (.ok [[c1W], [c2W]]) = .ret [c1W] none ∧
    ([[c1W], [c2W]] : List (List Commit)).flatten = [c1W, c2W] ∧
    ([c1W] : List Commit) ≠ [c1W, c2W] := by
  refine ⟨rfl, by simp, by simp⟩

/-! ### C10 -/

/-- When the parent scan returns with a non-nil error, the index slot of the
returned pair is 0. -/
theorem scanParents_err_index_zero
    (fetchParent : String → Except String (Option Commit)) (prSHA : String)
    (parents : List Parent) (k n : Nat) (msg : String)
    (h : scanParents fetchParent prSHA parents k = some (.ret n (some msg))) :
    n = 0 := by
  induction parents generalizing k with
  | nil => simp [scanParents] at h
  | cons p rest ih =>
    simp only [scanParents] at h
    split at h
    · simp only [Option.some.injEq, GoRet.ret.injEq] at h
      omega
    · simp only [Option.some.injEq, GoRet.ret.injEq] at h
      omega
    · split at h
      · simp at h
      · exact ih (k + 1) h

/-- C10: whenever `findPatchTree` returns with a non-nil error — whatever
the failure path — the parent-index slot of the returned pair is 0, the
same integer as a legitimate match on parent 0. -/
theorem findPatchTree_failure_returns_zero (pr : PullRequest)
    (fetchCommits : Except String (List Commit))
    (fetchMergeCommit : Except String (Option Commit))
    (fetchParent : String → Except String (Option Commit))
    (n : Nat) (msg : String)
    (h : findPatchTree pr fetchCommits fetchMergeCommit fetchParent =
      .ret n (some msg)) :
    n = 0 := by
  simp only [findPatchTree] at h
  split at h
  · simp only [GoRet.ret.injEq] at h
    omega
  · split at h
    · simp only [GoRet.ret.injEq] at h
      omega
    · split at h
      · simp only [GoRet.ret.injEq] at h
        omega
      · simp only [GoRet.ret.injEq] at h
        omega
      · split at h
        · simp at h
        · split at h
          · rename_i hscan
            subst h
            exact scanParents_err_index_zero _ _ _ 0 n msg hscan
          · simp only [GoRet.ret.injEq] at h
            omega

/-- Witness for C10 at a concrete input: a failed commit-list fetch yields
the pair `(0, error)`. -/
theorem findPatchTree_failure_returns_zero_witness :
    findPatchTree prW (.error "network down") (.ok none) fetchParentW =
      .ret 0 (some ("getting pr commits: " ++ "network down")) ∧ (0 : Nat) = 0 :=
  ⟨rfl, findPatchTree_failure_returns_zero prW (.error "network down") (.ok none)
    fetchParentW 0 ("getting pr commits: " ++ "network down") rfl⟩

end Mattermod
